import Mathlib

/-!
Shallow embedding of the customVoipBackend server core: the room lifecycle
manager and the token issuer, translated from the Express handlers in the
source (the zod schemas, the supabase room table accesses, the sanitize-html
call and the jwt signing step), together with theorems settling the frozen
claims about them.
-/

deriving instance DecidableEq for Except

namespace CustomVoip

/-! ## JSON-level request bodies

A JS request body field is either absent or carries a value of the expected
type; `z.object` parsing of a wrongly-typed field fails exactly like a missing
one for the properties at stake, so both are modelled as `none`.  JS numbers
are modelled as rationals (`ℚ`), which is exact for every value the
validations compare against. -/

/-- Body of a `POST /rooms` request, the fields `RoomSchema` inspects plus a
client-supplied `id` field (which `z.object` strips as an unknown key). -/
structure RoomBody where
  idField : Option String := none
  nameF : Option String := none
  capacityF : Option ℚ := none
  startAtF : Option String := none
  endAtF : Option String := none
  timezoneF : Option String := none
  recurringF : Option Bool := none
deriving DecidableEq

/-- Body of a `POST /rooms/:id/tokens` request, the fields `TokenSchema`
inspects. -/
structure TokenBody where
  roleF : Option String := none
  displayNameF : Option String := none
deriving DecidableEq

/-! ## Zod schema validation -/

/-- Helper for `z.string().datetime()`: the ISO-8601 UTC shape
`DDDD-DD-DDTDD:DD:DD(.digits)?Z` that the zod datetime regex enforces. -/
def takeDigits : Nat → List Char → Option (List Char)
  | 0, cs => some cs
  | _ + 1, [] => none
  | n + 1, c :: cs => if c.isDigit then takeDigits n cs else none

/-- Consume one expected literal character. -/
def expectChar (c : Char) : List Char → Option (List Char)
  | [] => none
  | d :: cs => if d = c then some cs else none

/-- After the seconds field: either `Z` ends the string, or a `.` introduces
one or more fractional digits followed by `Z`.  The flag records whether a
fractional digit has been seen. -/
def fracDigitsZ : Bool → List Char → Bool
  | seen, ['Z'] => seen
  | _, c :: cs => c.isDigit && fracDigitsZ true cs
  | _, [] => false

/-- Tail of a datetime string after `HH:MM:SS`. -/
def datetimeTail : List Char → Bool
  | ['Z'] => true
  | '.' :: cs => fracDigitsZ false cs
  | _ => false

/-- The zod `datetime()` check on a whole string. -/
def isDatetime (s : String) : Bool :=
  match some s.toList >>= takeDigits 4 >>= expectChar '-' >>= takeDigits 2 >>=
      expectChar '-' >>= takeDigits 2 >>= expectChar 'T' >>= takeDigits 2 >>=
      expectChar ':' >>= takeDigits 2 >>= expectChar ':' >>= takeDigits 2 with
  | none => false
  | some rest => datetimeTail rest

/-- The fully-populated value produced by `RoomSchema.parse`. -/
structure RoomInput where
  name : String
  capacity : ℚ
  startAt : String
  endAt : String
  timezone : String
  recurring : Bool
deriving DecidableEq

/-- Field check `name: z.string().min(1).max(100)`. -/
def parseRoomName : Option String → Except String String
  | none => .error "name Required"
  | some n =>
    if n.length < 1 then .error "name too short"
    else if 100 < n.length then .error "name too long"
    else .ok n

/-- Field check `capacity: z.number().min(1).max(11).default(11)`: an absent field takes
the default, a present one must lie between 1 and 11; zod's number checks put
no integrality constraint on it. -/
def parseCapacity : Option ℚ → Except String ℚ
  | none => .ok 11
  | some c =>
    if c < 1 then .error "capacity too small"
    else if 11 < c then .error "capacity too large"
    else .ok c

/-- Field check for `startAt` and `endAt`: `z.string().datetime()`. -/
def parseDatetimeField (label : String) : Option String → Except String String
  | none => .error (label ++ " Required")
  | some s => if isDatetime s then .ok s else .error (label ++ " Invalid datetime")

/-- Field check `timezone: z.string()`. -/
def parseTimezone : Option String → Except String String
  | none => .error "timezone Required"
  | some t => .ok t

/-- Field check `recurring: z.boolean().default(false)`. -/
def parseRecurring : Option Bool → Except String Bool
  | none => .ok false
  | some b => .ok b

/-- Translation of `RoomSchema.parse`: validates every field, strips the unknown `id` key,
and returns the typed, fully-populated input or the first validation issue. -/
def roomSchemaParse (b : RoomBody) : Except String RoomInput := do
  let name ← parseRoomName b.nameF
  let capacity ← parseCapacity b.capacityF
  let startAt ← parseDatetimeField "startAt" b.startAtF
  let endAt ← parseDatetimeField "endAt" b.endAtF
  let timezone ← parseTimezone b.timezoneF
  let recurring ← parseRecurring b.recurringF
  return { name, capacity, startAt, endAt, timezone, recurring }

/-- Role enumeration of `z.enum(['host', 'cohost', 'participant'])`. -/
inductive Role
  | host
  | cohost
  | participant
deriving DecidableEq

/-- The fully-populated value produced by `TokenSchema.parse`. -/
structure TokenInput where
  role : Role
  displayName : String
deriving DecidableEq

/-- Field check `role: z.enum(['host', 'cohost', 'participant'])`. -/
def parseRole : Option String → Except String Role
  | none => .error "role Required"
  | some r =>
    if r = "host" then .ok .host
    else if r = "cohost" then .ok .cohost
    else if r = "participant" then .ok .participant
    else .error "role Invalid enum value"

/-- Field check `displayName: z.string().min(1).max(50)`. -/
def parseDisplayName : Option String → Except String String
  | none => .error "displayName Required"
  | some d =>
    if d.length < 1 then .error "displayName too short"
    else if 50 < d.length then .error "displayName too long"
    else .ok d

/-- Translation of `TokenSchema.parse`. -/
def tokenSchemaParse (b : TokenBody) : Except String TokenInput := do
  let role ← parseRole b.roleF
  let displayName ← parseDisplayName b.displayNameF
  return { role, displayName }

/-! ## sanitize-html with allowedTags empty and allowedAttributes empty

The call strips every tag; text content is kept with the markup-significant
characters escaped as entities, except that the content of the non-text tags
(script, style, textarea, option, noscript) is discarded wholesale. -/

/-- A character that may continue a tag name. -/
def isTagNameChar (c : Char) : Bool := c.isAlpha || c.isDigit || c = '-'

/-- The tags whose text content sanitize-html discards. -/
def nonTextTags : List String := ["script", "style", "textarea", "option", "noscript"]

/-- Lower-case a character list. -/
def lowerList (cs : List Char) : List Char := cs.map Char.toLower

/-- Case-insensitive prefix test on character lists. -/
def startsWithCI (pre cs : List Char) : Bool :=
  lowerList (cs.take pre.length) = lowerList pre

/-- Drop everything up to and including the next `>` (to the end of input when
the tag is never closed, as the HTML parser treats the rest as tag text). -/
def skipToGt : List Char → List Char
  | [] => []
  | c :: cs => if c = '>' then cs else skipToGt cs

/-- Inside a non-text tag: drop everything up to its matching close tag
`</name`, then past that tag's `>`. -/
def skipToClose (tag : List Char) : List Char → List Char
  | [] => []
  | c :: cs =>
    if c = '<' then
      if startsWithCI ('/' :: tag) cs then skipToGt cs else skipToClose tag cs
    else skipToClose tag cs

/-- Entity-escape one text character the way sanitize-html renders kept text. -/
def escapeChar (c : Char) : List Char :=
  if c = '&' then "&amp;".toList
  else if c = '<' then "&lt;".toList
  else if c = '>' then "&gt;".toList
  else [c]

/-- Core sanitizer loop: a `<` opening a tag (letter, `/`+letter, or `!`)
drops the tag — dropping the whole element body for non-text tags — and any
other character is kept as escaped text. -/
def sanitizeFuel : Nat → List Char → List Char
  | 0, _ => []
  | fuel + 1, cs =>
    match cs with
    | [] => []
    | c :: rest =>
      if c = '<' then
        match rest with
        | [] => escapeChar '<'
        | d :: tail =>
          if d.isAlpha then
            let name := lowerList ((d :: tail).takeWhile isTagNameChar)
            if nonTextTags.any (fun t => t.toList = name) then
              sanitizeFuel fuel (skipToClose name (skipToGt (d :: tail)))
            else
              sanitizeFuel fuel (skipToGt (d :: tail))
          else if d = '/' ∨ d = '!' then
            sanitizeFuel fuel (skipToGt (d :: tail))
          else
            escapeChar '<' ++ sanitizeFuel fuel (d :: tail)
      else
        escapeChar c ++ sanitizeFuel fuel rest

/-- Every recursive step of `sanitizeFuel` strictly shrinks the list, so fuel
equal to the input length always runs the loop to completion. -/
def sanitizeAux (cs : List Char) : List Char := sanitizeFuel cs.length cs

/-- Translation of `sanitizeHtml(s, allowedTags: [], allowedAttributes: empty)`. -/
def sanitizeHtmlAll (s : String) : String := ⟨sanitizeAux s.toList⟩

/-! ## Token signing and verification

Modelled from the spec: the token signer is an external collaborator that
"accepts a claim map and a secret, returns an opaque signed string with an
embedded expiry"; verification by the later consumer rejects a token after
its expiry instant and under a wrong secret.  Time is in whole seconds. -/

/-- The claim set the issuer signs: `roomId`, `role`, `identity`. -/
structure Claims where
  roomId : String
  role : Role
  identity : String
deriving DecidableEq

/-- A signed token: the claim set together with the issued-at and expiry
instants and the secret that signed it (standing in for the signature). -/
structure SignedToken where
  claims : Claims
  iat : Nat
  exp : Nat
  sig : String
deriving DecidableEq

/-- Translation of `jwt.sign(claims, secret, expiresIn)`: embeds `exp = now + expiresIn`. -/
def jwtSign (claims : Claims) (secret : String) (now expiresInSec : Nat) : SignedToken :=
  { claims, iat := now, exp := now + expiresInSec, sig := secret }

/-- Verification outcomes on the consumer side. -/
inductive VerifyError
  | expired
  | badSignature
deriving DecidableEq

/-- Modelled from the spec: consumer-side verification of a signed token —
signature must match the shared secret, and a token is rejected as expired
from its `exp` instant on (standard signed-claims semantics). -/
def jwtVerify (t : SignedToken) (secret : String) (now : Nat) : Except VerifyError Claims :=
  if t.sig ≠ secret then .error .badSignature
  else if t.exp ≤ now then .error .expired
  else .ok t.claims

/-! ## The room repository

The supabase `rooms` table, as a list of records.  `select.eq('id',..).single`
succeeds only when exactly one row matches; `insert` is modelled from the
spec's repository contract. -/

/-- A persisted room record. -/
structure Room where
  id : String
  name : String
  capacity : ℚ
  startAt : String
  endAt : String
  timezone : String
  recurring : Bool
  state : String
deriving DecidableEq

/-- Translation of `.select().eq('id', id).single()`: the row with the id, when exactly one
row matches. -/
def getById (repo : List Room) (id : String) : Option Room :=
  match repo.filter (fun r => r.id = id) with
  | [r] => some r
  | _ => none

/-- Modelled from the spec: the repository's `insert(record) -> record |
error` under the invariant "Exactly one record per id exists in the
repository at any time" — inserting a record whose id is already present
fails and changes nothing. -/
def repoInsert (repo : List Room) (room : Room) : Except String (List Room × Room) :=
  if repo.any (fun r => r.id = room.id) then .error "duplicate key value"
  else .ok (repo ++ [room], room)

/-- The row-level effect of `.update(state closed).eq('id', id)`: every row
with the id has its state set to closed, every other row is untouched. -/
def closeMap (repo : List Room) (id : String) : List Room :=
  repo.map (fun r => if r.id = id then { r with state := "closed" } else r)

/-- Translation of `.update(state closed).eq('id', id).select().single()`: sets `state` to
closed on every row with the id, then returns the single updated row, or an
error when no single row matches. -/
def repoCloseUpdate (repo : List Room) (id : String) :
    List Room × Except String Room :=
  (closeMap repo id,
    match (closeMap repo id).filter (fun r => r.id = id) with
    | [r] => .ok r
    | _ => .error "no rows returned")

/-! ## The four request handlers -/

/-- The error taxonomy as the handlers surface it: which code path failed and
the message the path attaches. -/
inductive ApiErr
  | validation (msg : String)
  | repository (msg : String)
  | notFound (msg : String)
  | roomUnavailable (msg : String)
deriving DecidableEq

/-- The JSON body an HTTP response carries. -/
inductive RespBody
  | errorMsg (msg : String)
  | roomJson (room : Room)
  | tokenJson (token : SignedToken)
deriving DecidableEq

/-- An HTTP response: status code and body. -/
structure HttpResponse where
  status : Nat
  body : RespBody
deriving DecidableEq

/-- Handler for `POST /rooms`: parse with `RoomSchema`, then insert
`id := nanoid(10), ...data, state := scheduled`; any thrown error is caught
into a 400.  `freshId` is the `nanoid(10)` value drawn for this request and
`storeFail` a failure of the backing store unrelated to input validity. -/
def createRoom (body : RoomBody) (freshId : String) (storeFail : Option String)
    (repo : List Room) : List Room × Except ApiErr Room :=
  match roomSchemaParse body with
  | .error msg => (repo, .error (.validation msg))
  | .ok data =>
    match storeFail with
    | some msg => (repo, .error (.repository msg))
    | none =>
      match repoInsert repo
          { id := freshId, name := data.name, capacity := data.capacity,
            startAt := data.startAt, endAt := data.endAt,
            timezone := data.timezone, recurring := data.recurring,
            state := "scheduled" } with
      | .error msg => (repo, .error (.repository msg))
      | .ok (repo', room) => (repo', .ok room)

/-- Handler for `GET /rooms/:id`. -/
def getRoom (id : String) (repo : List Room) : Except ApiErr Room :=
  match getById repo id with
  | none => .error (.notFound "Room not found")
  | some r => .ok r

/-- Handler for `POST /rooms/:id/tokens`: parse with `TokenSchema` (a parse throw is
caught into the message `Invalid token data`), look the room up, refuse a
missing or closed room with the one message `Room not available`, then
sanitize the display name and sign the claim set with a 15-minute expiry. -/
def issueToken (roomId : String) (body : TokenBody) (repo : List Room)
    (secret : String) (now : Nat) : Except ApiErr SignedToken :=
  match tokenSchemaParse body with
  | .error _ => .error (.validation "Invalid token data")
  | .ok data =>
    match getById repo roomId with
    | none => .error (.roomUnavailable "Room not available")
    | some room =>
      if room.state = "closed" then .error (.roomUnavailable "Room not available")
      else
        .ok (jwtSign
          { roomId := roomId, role := data.role,
            identity := sanitizeHtmlAll data.displayName }
          secret now 900)

/-- Handler for `POST /rooms/:id/close`. -/
def closeRoom (id : String) (repo : List Room) : List Room × Except ApiErr Room :=
  ((repoCloseUpdate repo id).1,
    match (repoCloseUpdate repo id).2 with
    | .error msg => .error (.repository msg)
    | .ok room => .ok room)

/-- How each handler renders its result: every failure is
`res.status(400).json(error message)` (404 for a failed plain lookup), every
success is `res.json(payload)`. -/
def renderRoomResult : Except ApiErr Room → HttpResponse
  | .error (.validation msg) => ⟨400, .errorMsg msg⟩
  | .error (.repository msg) => ⟨400, .errorMsg msg⟩
  | .error (.notFound msg) => ⟨404, .errorMsg msg⟩
  | .error (.roomUnavailable msg) => ⟨400, .errorMsg msg⟩
  | .ok room => ⟨200, .roomJson room⟩

/-! ## Request interleavings

One client-visible operation per step, for the temporal claims. -/

/-- One incoming request, with the per-request environment that feeds it. -/
inductive Op
  | create (body : RoomBody) (freshId : String) (storeFail : Option String)
  | getOp (id : String)
  | token (roomId : String) (body : TokenBody) (secret : String) (now : Nat)
  | close (id : String)

/-- The repository after one handler runs. -/
def step (repo : List Room) : Op → List Room
  | .create body freshId storeFail => (createRoom body freshId storeFail repo).1
  | .getOp _ => repo
  | .token _ _ _ _ => repo
  | .close id => (closeRoom id repo).1

/-- The repository after a sequence of requests. -/
def run (repo : List Room) : List Op → List Room
  | [] => repo
  | op :: ops => run (step repo op) ops

/-! ## Concrete fixtures -/

/-- A scheduled room, as created by the scenario in the spec. -/
def openRoom : Room :=
  { id := "r1", name := "Standup", capacity := 5,
    startAt := "2025-01-01T09:00:00Z", endAt := "2025-01-01T09:30:00Z",
    timezone := "UTC", recurring := false, state := "scheduled" }

/-- The same room after closing. -/
def closedRoom : Room := { openRoom with state := "closed" }

/-- A well-formed token request body. -/
def annBody : TokenBody := { roleF := some "host", displayNameF := some "Ann" }

/-- The spec's round-trip token request body carrying markup. -/
def scriptAnnBody : TokenBody :=
  { roleF := some "host", displayNameF := some "<script>x</script>Ann" }

/-- A token request body whose display name is markup only. -/
def markupOnlyBody : TokenBody :=
  { roleF := some "host", displayNameF := some "<b></b>" }

/-- A well-formed room creation body. -/
def goodRoomBody : RoomBody :=
  { nameF := some "Standup", capacityF := some 5,
    startAtF := some "2025-01-01T09:00:00Z", endAtF := some "2025-01-01T09:30:00Z",
    timezoneF := some "UTC", recurringF := some false }

/-- A display name of 51 identical characters. -/
def longName : String := ⟨List.replicate 51 'a'⟩

/-- The creation body with a non-integer capacity of three halves. -/
def fracCapBody : RoomBody := { goodRoomBody with capacityF := some (mkRat 3 2) }

/-- The room the non-integer-capacity creation persists. -/
def fracCapRoom : Room :=
  { id := "id1", name := "Standup", capacity := mkRat 3 2,
    startAt := "2025-01-01T09:00:00Z", endAt := "2025-01-01T09:30:00Z",
    timezone := "UTC", recurring := false, state := "scheduled" }

/-- The creation body with an empty name. -/
def emptyNameBody : RoomBody := { goodRoomBody with nameF := some "" }

/-- The room persisted for `goodRoomBody` under a given fresh id. -/
def standupRoom (fid : String) : Room :=
  { id := fid, name := "Standup", capacity := 5,
    startAt := "2025-01-01T09:00:00Z", endAt := "2025-01-01T09:30:00Z",
    timezone := "UTC", recurring := false, state := "scheduled" }

/-- Exactly one record with the id is present and it is closed. -/
def closedAt (repo : List Room) (id : String) : Bool :=
  match repo.filter (fun r => r.id = id) with
  | [r] => r.state = "closed"
  | _ => false

/-- Every record's state is one of the two reference states. -/
def goodStates (repo : List Room) : Bool :=
  repo.all (fun r => r.state = "scheduled" || r.state = "closed")

/-! ## Spec-side predicates (refinement comparisons) -/

/-- Following the claim's words: the token body is valid when the role is one
of host, cohost, participant and the display name has length 1 to 50. -/
def specTokenBodyValid (b : TokenBody) : Bool :=
  (match b.roleF with
    | some r => r = "host" || r = "cohost" || r = "participant"
    | none => false) &&
  (match b.displayNameF with
    | some d => 1 ≤ d.length && d.length ≤ 50
    | none => false)

/-! ## Claim C1 -/

/-- Claim C1: for a token request with a valid role and display name, a room id
with no record and a room id whose record is closed fail identically: both
produce the `roomUnavailable` kind carrying the single message
`Room not available`, so a caller cannot tell a never-existing room from a
closed one. -/
theorem issueToken_unavailable_indistinguishable (roomId : String) (body : TokenBody)
    (repo : List Room) (secret : String) (now : Nat) (data : TokenInput)
    (hparse : tokenSchemaParse body = .ok data)
    (hroom : getById repo roomId = none ∨
      ∃ r, getById repo roomId = some r ∧ r.state = "closed") :
    issueToken roomId body repo secret now =
      .error (.roomUnavailable "Room not available") := by
  unfold issueToken
  rw [hparse]
  rcases hroom with h | ⟨r, h, hs⟩
  · rw [h]
  · rw [h]
    simp [hs]

/-- Claim C1 witness: the theorem applied to a missing room and to a closed room. -/
theorem issueToken_unavailable_indistinguishable_witness :
    issueToken "r1" annBody [] "secret" 0 =
      .error (.roomUnavailable "Room not available") ∧
    issueToken "r1" annBody [closedRoom] "secret" 0 =
      .error (.roomUnavailable "Room not available") :=
  ⟨issueToken_unavailable_indistinguishable "r1" annBody [] "secret" 0
      { role := .host, displayName := "Ann" } (by decide) (Or.inl (by decide)),
    issueToken_unavailable_indistinguishable "r1" annBody [closedRoom] "secret" 0
      { role := .host, displayName := "Ann" } (by decide)
      (Or.inr ⟨closedRoom, by decide, by decide⟩)⟩

/-! ## Claim C2 -/

/-- The check `parseRole` succeeds exactly on the three enumerated role strings. -/
theorem parseRole_isOk (o : Option String) :
    (parseRole o).isOk =
      (match o with
        | some r => r = "host" || r = "cohost" || r = "participant"
        | none => false) := by
  cases o with
  | none => rfl
  | some r =>
    unfold parseRole
    by_cases h1 : r = "host" <;> by_cases h2 : r = "cohost" <;>
      by_cases h3 : r = "participant" <;>
        simp [h1, h2, h3, Except.isOk, Except.toBool]

/-- The check `parseDisplayName` succeeds exactly on strings of length 1 to 50. -/
theorem parseDisplayName_isOk (o : Option String) :
    (parseDisplayName o).isOk =
      (match o with
        | some d => 1 ≤ d.length && d.length ≤ 50
        | none => false) := by
  cases o with
  | none => rfl
  | some d =>
    unfold parseDisplayName
    by_cases h1 : d.length < 1 <;> by_cases h2 : 50 < d.length <;>
      simp [h1, h2, Except.isOk, Except.toBool] <;> omega

/-- Parsing with `TokenSchema` succeeds exactly when both field checks do. -/
theorem tokenSchemaParse_isOk (b : TokenBody) :
    (tokenSchemaParse b).isOk =
      ((parseRole b.roleF).isOk && (parseDisplayName b.displayNameF).isOk) := by
  unfold tokenSchemaParse
  cases hr : parseRole b.roleF with
  | error e => simp [hr, Except.isOk, Except.toBool, Except.bind, bind]
  | ok role =>
    cases hd : parseDisplayName b.displayNameF with
    | error e => simp [hr, hd, Except.isOk, Except.toBool, Except.bind, bind]
    | ok d => simp [hr, hd, Except.isOk, Except.toBool, Except.bind, bind, pure, Except.pure]

/-- Claim C2: `TokenSchema` accepts a body exactly when the role is one of the
three enumerated values and the display name has length 1 to 50; and when the
body is invalid, the request fails with the validation kind uniformly in the
repository — the result is the same for every repository, so no repository
read can influence it, whatever the room's state. -/
theorem issueToken_validation_before_lookup (b : TokenBody) :
    ((tokenSchemaParse b).isOk = specTokenBodyValid b) ∧
    (specTokenBodyValid b = false →
      ∀ (roomId : String) (repo : List Room) (secret : String) (now : Nat),
        issueToken roomId b repo secret now =
          .error (.validation "Invalid token data")) := by
  have hchar : (tokenSchemaParse b).isOk = specTokenBodyValid b := by
    rw [tokenSchemaParse_isOk, parseRole_isOk, parseDisplayName_isOk]
    rfl
  refine ⟨hchar, fun hinvalid roomId repo secret now => ?_⟩
  rw [hinvalid] at hchar
  unfold issueToken
  cases hp : tokenSchemaParse b with
  | error e => rfl
  | ok data => rw [hp] at hchar; simp [Except.isOk, Except.toBool] at hchar

/-- Claim C2 witness: a display name of length 51 and one of length 0 are rejected
with the validation kind against both a scheduled and a closed room. -/
theorem issueToken_validation_before_lookup_witness :
    specTokenBodyValid { roleF := some "host", displayNameF := some longName } = false ∧
    issueToken "r1" { roleF := some "host", displayNameF := some longName }
      [openRoom] "secret" 0 = .error (.validation "Invalid token data") ∧
    specTokenBodyValid { roleF := some "host", displayNameF := some "" } = false ∧
    issueToken "r1" { roleF := some "host", displayNameF := some "" }
      [closedRoom] "secret" 0 = .error (.validation "Invalid token data") :=
  ⟨by decide,
    (issueToken_validation_before_lookup _).2 (by decide) "r1" [openRoom] "secret" 0,
    by decide,
    (issueToken_validation_before_lookup _).2 (by decide) "r1" [closedRoom] "secret" 0⟩

/-! ## Claims C3 and C4 -/

/-- Inversion of a successful token issuance: the body parsed, the room was
found and not closed, and the token is the signed claim set with the
sanitized display name and a 900-second expiry window. -/
theorem issueToken_ok_inv (roomId : String) (body : TokenBody) (repo : List Room)
    (secret : String) (now : Nat) (tok : SignedToken)
    (h : issueToken roomId body repo secret now = .ok tok) :
    ∃ data room, tokenSchemaParse body = .ok data ∧
      getById repo roomId = some room ∧ room.state ≠ "closed" ∧
      tok = jwtSign
        { roomId := roomId, role := data.role,
          identity := sanitizeHtmlAll data.displayName } secret now 900 := by
  unfold issueToken at h
  cases hp : tokenSchemaParse body with
  | error e => rw [hp] at h; exact absurd h (by simp)
  | ok data =>
    rw [hp] at h
    cases hg : getById repo roomId with
    | none => rw [hg] at h; exact absurd h (by simp)
    | some room =>
      rw [hg] at h
      by_cases hc : room.state = "closed"
      · simp [hc] at h
      · refine ⟨data, room, rfl, rfl, hc, ?_⟩
        simp [hc] at h
        exact h.symm

/-- Claim C3: a successfully issued token decodes (with the signing secret, inside
the window) to exactly the requested room id, the requested role, and the
display name with all markup stripped; in particular the spec's round-trip
example decodes to identity `Ann` and role host. -/
theorem issueToken_claims_roundtrip (roomId : String) (body : TokenBody)
    (repo : List Room) (secret : String) (now : Nat) (data : TokenInput)
    (tok : SignedToken)
    (hparse : tokenSchemaParse body = .ok data)
    (hissue : issueToken roomId body repo secret now = .ok tok) :
    jwtVerify tok secret now =
      .ok { roomId := roomId, role := data.role,
            identity := sanitizeHtmlAll data.displayName } ∧
    tok.claims.roomId = roomId ∧ tok.claims.role = data.role ∧
    tok.claims.identity = sanitizeHtmlAll data.displayName ∧
    (∃ tok1, issueToken "r1" scriptAnnBody [openRoom] "secret" 0 = .ok tok1 ∧
      tok1.claims.identity = "Ann" ∧ tok1.claims.role = .host ∧
      tok1.claims.roomId = "r1") := by
  obtain ⟨data', room, hp, hg, hc, htok⟩ :=
    issueToken_ok_inv roomId body repo secret now tok hissue
  have hdata : data' = data := by
    rw [hparse] at hp
    exact (Except.ok.inj hp).symm
  subst hdata
  subst htok
  refine ⟨by simp [jwtSign, jwtVerify], rfl, rfl, rfl, ?_⟩
  exact ⟨{ claims := { roomId := "r1", role := .host, identity := "Ann" },
           iat := 0, exp := 900, sig := "secret" }, by decide, rfl, rfl, rfl⟩

/-- Claim C3 witness: the theorem applied to a concrete issuance. -/
theorem issueToken_claims_roundtrip_witness :
    jwtVerify
      { claims := { roomId := "r1", role := .host, identity := "Ann" },
        iat := 0, exp := 900, sig := "secret" } "secret" 0 =
      .ok { roomId := "r1", role := .host, identity := sanitizeHtmlAll "Ann" } :=
  (issueToken_claims_roundtrip "r1" annBody [openRoom] "secret" 0
    { role := .host, displayName := "Ann" }
    { claims := { roomId := "r1", role := .host, identity := "Ann" },
      iat := 0, exp := 900, sig := "secret" }
    (by decide) (by decide)).1

/-- Claim C4: every issued token is stamped `iat = now` and expires exactly 15
minutes (900 seconds) later; verification strictly after that window rejects
the token as expired. -/
theorem issueToken_expiry_15min (roomId : String) (body : TokenBody)
    (repo : List Room) (secret : String) (now : Nat) (tok : SignedToken)
    (hissue : issueToken roomId body repo secret now = .ok tok) :
    tok.iat = now ∧ tok.exp = now + 15 * 60 ∧
    (∀ t, now + 15 * 60 < t → jwtVerify tok secret t = .error .expired) := by
  obtain ⟨data, room, hp, hg, hc, htok⟩ :=
    issueToken_ok_inv roomId body repo secret now tok hissue
  subst htok
  refine ⟨rfl, rfl, fun t ht => ?_⟩
  have hle : now + 900 ≤ t := by omega
  simp [jwtSign, jwtVerify, hle]

/-- Claim C4 witness: a token issued at time 0 expires at 900 and is rejected as
expired when verified at time 1000. -/
theorem issueToken_expiry_15min_witness :
    ({ claims := { roomId := "r1", role := .host, identity := "Ann" },
       iat := 0, exp := 900, sig := "secret" } : SignedToken).exp = 0 + 15 * 60 ∧
    jwtVerify
      { claims := { roomId := "r1", role := .host, identity := "Ann" },
        iat := 0, exp := 900, sig := "secret" } "secret" 1000 = .error .expired :=
  ⟨(issueToken_expiry_15min "r1" annBody [openRoom] "secret" 0 _ (by decide)).2.1,
    (issueToken_expiry_15min "r1" annBody [openRoom] "secret" 0 _ (by decide)).2.2
      1000 (by decide)⟩

/-! ## Claim C10 -/

/-- Claim C10: the display name `<b></b>` has length 7, passing the 1-to-50 length
validation, yet its sanitized form is empty, so the issued token carries an
empty identity: the length check applies to the pre-sanitization input only
and is never re-applied after sanitization. -/
theorem issueToken_empty_identity_after_sanitize :
    ("<b></b>" : String).length = 7 ∧
    (tokenSchemaParse markupOnlyBody).isOk = true ∧
    sanitizeHtmlAll "<b></b>" = "" ∧
    issueToken "r1" markupOnlyBody [openRoom] "secret" 0 =
      .ok { claims := { roomId := "r1", role := .host, identity := "" },
            iat := 0, exp := 900, sig := "secret" } := by
  exact ⟨by decide, by decide, by decide, by decide⟩

/-! ## Claims C5 and C6 -/

/-- Inversion of a successful `RoomSchema` parse: every field check passed
and produced the corresponding field of the result. -/
theorem roomSchemaParse_ok_inv (b : RoomBody) (data : RoomInput)
    (h : roomSchemaParse b = .ok data) :
    parseRoomName b.nameF = .ok data.name ∧
    parseCapacity b.capacityF = .ok data.capacity ∧
    parseDatetimeField "startAt" b.startAtF = .ok data.startAt ∧
    parseDatetimeField "endAt" b.endAtF = .ok data.endAt ∧
    parseTimezone b.timezoneF = .ok data.timezone ∧
    parseRecurring b.recurringF = .ok data.recurring := by
  unfold roomSchemaParse at h
  cases h1 : parseRoomName b.nameF with
  | error e => simp [h1, Except.bind, bind] at h
  | ok name =>
    cases h2 : parseCapacity b.capacityF with
    | error e => simp [h1, h2, Except.bind, bind] at h
    | ok cap =>
      cases h3 : parseDatetimeField "startAt" b.startAtF with
      | error e => simp [h1, h2, h3, Except.bind, bind] at h
      | ok sa =>
        cases h4 : parseDatetimeField "endAt" b.endAtF with
        | error e => simp [h1, h2, h3, h4, Except.bind, bind] at h
        | ok ea =>
          cases h5 : parseTimezone b.timezoneF with
          | error e => simp [h1, h2, h3, h4, h5, Except.bind, bind] at h
          | ok tz =>
            cases h6 : parseRecurring b.recurringF with
            | error e => simp [h1, h2, h3, h4, h5, h6, Except.bind, bind] at h
            | ok rc =>
              simp only [h1, h2, h3, h4, h5, h6, Except.bind, bind,
                pure, Except.pure] at h
              cases h
              exact ⟨rfl, rfl, rfl, rfl, rfl, rfl⟩

/-- A failed `RoomSchema` field check fails the whole parse (shown for the
capacity field, propagating the capacity error unless the name already
failed). -/
theorem roomSchemaParse_capacity_error (b : RoomBody) (e : String)
    (hcap : parseCapacity b.capacityF = .error e) :
    (∃ msg, roomSchemaParse b = .error msg) := by
  unfold roomSchemaParse
  cases h1 : parseRoomName b.nameF with
  | error e1 => exact ⟨e1, by simp [Except.bind, bind]⟩
  | ok name => exact ⟨e, by simp [hcap, Except.bind, bind]⟩

/-- Claim C5 counterexample: the capacity three halves is not an integer, lies
between 1 and 11, and `create` accepts it, persisting a room with that
capacity — refuting "any non-integer capacity is rejected". -/
theorem create_accepts_noninteger_capacity :
    (mkRat 3 2).den ≠ 1 ∧
    (1 : ℚ) ≤ mkRat 3 2 ∧ mkRat 3 2 ≤ 11 ∧
    createRoom fracCapBody "id1" none [] = ([fracCapRoom], .ok fracCapRoom) := by
  exact ⟨by decide, by decide, by decide, by decide⟩

/-- Claim C5 amended: `create` accepts a present capacity exactly when it lies
between 1 and 11 as a number — integrality is never checked — rejecting an
out-of-range capacity with the validation kind before any write, and an
omitted capacity defaults to 11. -/
theorem create_capacity_range (b : RoomBody) (c : ℚ) (fid : String)
    (sf : Option String) (repo : List Room) :
    (b.capacityF = some c → (c < 1 ∨ 11 < c) →
      ∃ msg, createRoom b fid sf repo = (repo, .error (.validation msg))) ∧
    (∀ data, roomSchemaParse b = .ok data →
      (b.capacityF = some c → 1 ≤ c ∧ c ≤ 11 ∧ data.capacity = c) ∧
      (b.capacityF = none → data.capacity = 11)) := by
  constructor
  · intro hc hout
    have hcap : parseCapacity b.capacityF = .error
        (if c < 1 then "capacity too small" else "capacity too large") := by
      rw [hc]
      unfold parseCapacity
      rcases hout with h | h
      · simp [h]
      · have : ¬ c < 1 := by
          intro hlt
          exact absurd (hlt.trans (by norm_num : (1:ℚ) < 11)) (not_lt.mpr h.le)
        simp [this, h]
    obtain ⟨msg, hmsg⟩ := roomSchemaParse_capacity_error b _ hcap
    refine ⟨msg, ?_⟩
    unfold createRoom
    rw [hmsg]
  · intro data hdata
    obtain ⟨-, hcap, -, -, -, -⟩ := roomSchemaParse_ok_inv b data hdata
    constructor
    · intro hc
      rw [hc] at hcap
      unfold parseCapacity at hcap
      by_cases h1 : c < 1
      · simp [h1] at hcap
      · by_cases h2 : 11 < c
        · simp [h1, h2] at hcap
        · refine ⟨not_lt.mp h1, not_lt.mp h2, ?_⟩
          simp [h1, h2] at hcap
          exact hcap.symm
    · intro hc
      rw [hc] at hcap
      unfold parseCapacity at hcap
      exact (Except.ok.inj hcap).symm

/-- Claim C5 witness: capacity 0 and 12 are rejected before any write; the parses
of capacity 1, capacity 11 and an omitted capacity are accepted with the
stated values. -/
theorem create_capacity_range_witness :
    (∃ msg, createRoom { goodRoomBody with capacityF := some 0 } "id1" none [] =
      ([], .error (.validation msg))) ∧
    (∃ msg, createRoom { goodRoomBody with capacityF := some 12 } "id1" none [] =
      ([], .error (.validation msg))) ∧
    ((1 : ℚ) ≤ 1 ∧ (1 : ℚ) ≤ 11 ∧
      ({ name := "Standup", capacity := 1, startAt := "2025-01-01T09:00:00Z",
         endAt := "2025-01-01T09:30:00Z", timezone := "UTC",
         recurring := false } : RoomInput).capacity = 1) ∧
    ((1 : ℚ) ≤ 11 ∧ (11 : ℚ) ≤ 11 ∧
      ({ name := "Standup", capacity := 11, startAt := "2025-01-01T09:00:00Z",
         endAt := "2025-01-01T09:30:00Z", timezone := "UTC",
         recurring := false } : RoomInput).capacity = 11) ∧
    ({ name := "Standup", capacity := 11, startAt := "2025-01-01T09:00:00Z",
       endAt := "2025-01-01T09:30:00Z", timezone := "UTC",
       recurring := false } : RoomInput).capacity = 11 :=
  ⟨(create_capacity_range { goodRoomBody with capacityF := some 0 } 0 "id1" none []).1
      rfl (Or.inl (by decide)),
    (create_capacity_range { goodRoomBody with capacityF := some 12 } 12 "id1" none []).1
      rfl (Or.inr (by decide)),
    ((create_capacity_range { goodRoomBody with capacityF := some 1 } 1 "id1" none []).2
      _ (by decide)).1 rfl,
    ((create_capacity_range { goodRoomBody with capacityF := some 11 } 11 "id1" none []).2
      _ (by decide)).1 rfl,
    ((create_capacity_range { goodRoomBody with capacityF := none } 0 "id1" none []).2
      _ (by decide)).2 rfl⟩

/-- Claim C6 counterexample: an empty name fails through the validation path and a
store failure on a valid input fails through the repository path — two
distinct internal kinds — yet the two rendered HTTP responses are identical
(status 400 with the same error-message body) when the store's message
coincides with the validation message, so the response does not carry a
distinct error kind. -/
theorem create_error_kinds_conflated :
    (createRoom emptyNameBody "id1" none []).2 = .error (.validation "name too short") ∧
    (createRoom goodRoomBody "id1" (some "name too short") []).2 =
      .error (.repository "name too short") ∧
    ApiErr.validation "name too short" ≠ ApiErr.repository "name too short" ∧
    renderRoomResult (createRoom emptyNameBody "id1" none []).2 =
      renderRoomResult (createRoom goodRoomBody "id1" (some "name too short") []).2 := by
  exact ⟨by decide, by decide, by decide, by decide⟩

/-- Claim C6 amended: every field constraint is checked before any persistence
attempt — an invalid input fails through the validation path with the
repository unchanged — and a write failure for a valid input fails through
the repository path, a kind distinct from every validation error internally;
both, however, render as status 400 with an error-message body, so the
response distinguishes them only by message text. -/
theorem create_validates_before_persistence (b : RoomBody) (fid : String)
    (sf : Option String) (repo : List Room) :
    (∀ msg, roomSchemaParse b = .error msg →
      createRoom b fid sf repo = (repo, .error (.validation msg)) ∧
      renderRoomResult (.error (.validation msg)) = ⟨400, .errorMsg msg⟩) ∧
    (∀ data msg, roomSchemaParse b = .ok data → sf = some msg →
      createRoom b fid sf repo = (repo, .error (.repository msg)) ∧
      (∀ msg', ApiErr.repository msg ≠ ApiErr.validation msg') ∧
      renderRoomResult (.error (.repository msg)) = ⟨400, .errorMsg msg⟩) := by
  constructor
  · intro msg hmsg
    constructor
    · unfold createRoom
      rw [hmsg]
    · rfl
  · intro data msg hdata hsf
    refine ⟨?_, ⟨fun msg' h => ApiErr.noConfusion h, rfl⟩⟩
    unfold createRoom
    rw [hdata, hsf]

/-- Claim C6 witness: the amended theorem applied to the empty-name input and to a
store failure on the valid input. -/
theorem create_validates_before_persistence_witness :
    createRoom emptyNameBody "id1" none [openRoom] =
      ([openRoom], .error (.validation "name too short")) ∧
    createRoom goodRoomBody "id1" (some "store down") [openRoom] =
      ([openRoom], .error (.repository "store down")) :=
  ⟨((create_validates_before_persistence emptyNameBody "id1" none [openRoom]).1
      "name too short" (by decide)).1,
    ((create_validates_before_persistence goodRoomBody "id1" (some "store down")
      [openRoom]).2
      { name := "Standup", capacity := 5,
        startAt := "2025-01-01T09:00:00Z", endAt := "2025-01-01T09:30:00Z",
        timezone := "UTC", recurring := false } "store down" (by decide) rfl).1⟩

/-! ## Claim C7 -/

/-- Inversion of a successful room creation: the body parsed, the store did
not fail, the fresh id was not yet present, and the persisted room carries
the fresh id and the scheduled state, appended to the repository. -/
theorem createRoom_ok_inv (b : RoomBody) (fid : String) (sf : Option String)
    (repo repo' : List Room) (room : Room)
    (h : createRoom b fid sf repo = (repo', .ok room)) :
    ∃ data, roomSchemaParse b = .ok data ∧ sf = none ∧
      room =
        { id := fid, name := data.name, capacity := data.capacity,
          startAt := data.startAt, endAt := data.endAt,
          timezone := data.timezone, recurring := data.recurring,
          state := "scheduled" } ∧
      repo.any (fun r => r.id = fid) = false ∧
      repo' = repo ++ [room] := by
  unfold createRoom at h
  cases hp : roomSchemaParse b with
  | error e => rw [hp] at h; simp at h
  | ok data =>
    rw [hp] at h
    cases sf with
    | some m => simp at h
    | none =>
      unfold repoInsert at h
      by_cases hany : repo.any (fun r => r.id = fid) = true
      · simp [hany] at h
      · rw [Bool.not_eq_true] at hany
        simp only [hany, Bool.false_eq_true, if_false, if_neg] at h
        obtain ⟨hrepo, hroom⟩ := Prod.mk.injEq .. ▸ h
        refine ⟨data, rfl, rfl, ?_, hany, ?_⟩
        · exact (Except.ok.inj hroom).symm
        · rw [hrepo.symm, (Except.ok.inj hroom)]

/-- Claim C7: a successfully created room is persisted with the scheduled state
and the system-drawn fresh id — a client-supplied id field is ignored, the
result being identical for every value of that field — and two successive
successful creations return rooms with distinct ids. -/
theorem create_scheduled_fresh_unique (b b2 : RoomBody) (fid fid2 : String)
    (sf sf2 : Option String) (x : Option String)
    (repo repo1 repo2 : List Room) (room room2 : Room) :
    (createRoom b fid sf repo = (repo1, .ok room) →
      room.state = "scheduled" ∧ room.id = fid ∧
      createRoom { b with idField := x } fid sf repo = (repo1, .ok room)) ∧
    (createRoom b fid sf repo = (repo1, .ok room) →
      createRoom b2 fid2 sf2 repo1 = (repo2, .ok room2) →
      room.id ≠ room2.id) := by
  constructor
  · intro h
    obtain ⟨data, hp, hsf, hroom, hany, hrepo⟩ :=
      createRoom_ok_inv b fid sf repo repo1 room h
    exact ⟨by rw [hroom], by rw [hroom], h⟩
  · intro h1 h2
    obtain ⟨data, hp, hsf, hroom, hany, hrepo⟩ :=
      createRoom_ok_inv b fid sf repo repo1 room h1
    obtain ⟨data2, hp2, hsf2, hroom2, hany2, hrepo2⟩ :=
      createRoom_ok_inv b2 fid2 sf2 repo1 repo2 room2 h2
    intro heq
    have hmem : room ∈ repo1 := by
      rw [hrepo]
      exact List.mem_append_right _ (List.mem_singleton.mpr rfl)
    have : repo1.any (fun r => r.id = fid2) = true := by
      refine List.any_eq_true.mpr ⟨room, hmem, ?_⟩
      have : room2.id = fid2 := by rw [hroom2]
      simp [heq ▸ this]
    rw [this] at hany2
    exact Bool.noConfusion hany2

/-- Claim C7 witness: creating twice with fresh ids id1 then id2 yields scheduled
rooms whose ids are the fresh ids and differ. -/
theorem create_scheduled_fresh_unique_witness :
    (standupRoom "id1").state = "scheduled" ∧
    (standupRoom "id1").id = "id1" ∧
    createRoom { goodRoomBody with idField := some "evil" } "id1" none [] =
      ([standupRoom "id1"], .ok (standupRoom "id1")) ∧
    (standupRoom "id1").id ≠ (standupRoom "id2").id :=
  ⟨((create_scheduled_fresh_unique goodRoomBody goodRoomBody "id1" "id2" none none
      (some "evil") [] [standupRoom "id1"] [standupRoom "id1", standupRoom "id2"]
      (standupRoom "id1") (standupRoom "id2")).1 (by decide)).1,
    ((create_scheduled_fresh_unique goodRoomBody goodRoomBody "id1" "id2" none none
      (some "evil") [] [standupRoom "id1"] [standupRoom "id1", standupRoom "id2"]
      (standupRoom "id1") (standupRoom "id2")).1 (by decide)).2.1,
    ((create_scheduled_fresh_unique goodRoomBody goodRoomBody "id1" "id2" none none
      (some "evil") [] [standupRoom "id1"] [standupRoom "id1", standupRoom "id2"]
      (standupRoom "id1") (standupRoom "id2")).1 (by decide)).2.2,
    (create_scheduled_fresh_unique goodRoomBody goodRoomBody "id1" "id2" none none
      (some "evil") [] [standupRoom "id1"] [standupRoom "id1", standupRoom "id2"]
      (standupRoom "id1") (standupRoom "id2")).2 (by decide) (by decide)⟩

/-! ## Claim C8 -/

/-- The repository after `closeRoom` is the pointwise closing map. -/
theorem closeRoom_repo (id : String) (repo : List Room) :
    (closeRoom id repo).1 = closeMap repo id := rfl

/-- The repository after `createRoom` is unchanged, or extended by one room
carrying the fresh id — an id no existing record had. -/
theorem createRoom_repo_cases (b : RoomBody) (fid : String) (sf : Option String)
    (repo : List Room) :
    (createRoom b fid sf repo).1 = repo ∨
    ∃ room, (createRoom b fid sf repo).1 = repo ++ [room] ∧ room.id = fid ∧
      room.state = "scheduled" ∧ repo.any (fun r => r.id = fid) = false := by
  cases hp : roomSchemaParse b with
  | error e => exact Or.inl (by simp only [createRoom, hp])
  | ok data =>
    cases sf with
    | some m => exact Or.inl (by simp only [createRoom, hp])
    | none =>
      by_cases hany : repo.any (fun r => r.id = fid) = true
      · exact Or.inl (by simp only [createRoom, repoInsert, hp, if_pos hany])
      · have hanyF : repo.any (fun r => r.id = fid) = false := by
          rw [← Bool.not_eq_true]; exact hany
        refine Or.inr ⟨
          { id := fid, name := data.name, capacity := data.capacity,
            startAt := data.startAt, endAt := data.endAt, timezone := data.timezone,
            recurring := data.recurring, state := "scheduled" }, ?_, rfl, rfl, hanyF⟩
        simp only [createRoom, repoInsert, hp, if_neg hany]

/-- The predicate `closedAt` holds exactly when the lookup returns a closed room. -/
theorem closedAt_getById (repo : List Room) (id : String)
    (h : closedAt repo id = true) :
    ∃ r, getById repo id = some r ∧ r.state = "closed" := by
  unfold closedAt at h
  unfold getById
  cases hm : repo.filter (fun r => r.id = id) with
  | nil => rw [hm] at h; exact Bool.noConfusion h
  | cons r rest =>
    cases rest with
    | nil =>
      rw [hm] at h
      exact ⟨r, rfl, by simpa using h⟩
    | cons r2 rest2 => rw [hm] at h; exact Bool.noConfusion h

/-- Any member of the closing map whose id matches is closed. -/
theorem mem_closeMap_closed (repo : List Room) (id : String) (r' : Room)
    (hmem : r' ∈ closeMap repo id) (hid : r'.id = id) : r'.state = "closed" := by
  obtain ⟨a, ha, hfa⟩ := List.mem_map.mp hmem
  by_cases h : a.id = id
  · rw [if_pos h] at hfa
    rw [← hfa]
  · rw [if_neg h] at hfa
    rw [← hfa] at hid
    exact absurd hid h

/-- A successful close leaves exactly one record with the id, closed. -/
theorem closeRoom_ok_closedAt (id : String) (repo repo' : List Room) (room : Room)
    (h : closeRoom id repo = (repo', .ok room)) :
    closedAt repo' id = true := by
  have hfst : closeMap repo id = repo' := congrArg Prod.fst h
  have hsnd : (closeRoom id repo).2 = Except.ok room := congrArg Prod.snd h
  cases hm : (closeMap repo id).filter (fun r => r.id = id) with
  | nil =>
    simp only [closeRoom, repoCloseUpdate, hm] at hsnd
    exact Except.noConfusion hsnd
  | cons r rest =>
    cases rest with
    | nil =>
      have hrmem : r ∈ (closeMap repo id).filter (fun x => x.id = id) := by
        rw [hm]; exact List.mem_singleton.mpr rfl
      have hrid : r.id = id := by simpa using (List.mem_filter.mp hrmem).2
      have hrst : r.state = "closed" :=
        mem_closeMap_closed repo id r (List.mem_filter.mp hrmem).1 hrid
      unfold closedAt
      rw [← hfst, hm]
      simpa using hrst
    | cons r2 rest2 =>
      simp only [closeRoom, repoCloseUpdate, hm] at hsnd
      exact Except.noConfusion hsnd

/-- Filtering the closing map by an id equals the closing map of the filter:
the map never changes ids. -/
theorem filter_closeMap (repo : List Room) (id cid : String) :
    (closeMap repo cid).filter (fun r => r.id = id) =
      (repo.filter (fun r => r.id = id)).map
        (fun r => if r.id = cid then { r with state := "closed" } else r) := by
  unfold closeMap
  rw [List.filter_map]
  have hpred : ((fun r : Room => decide (r.id = id)) ∘
      (fun r : Room => if r.id = cid then { r with state := "closed" } else r)) =
      (fun r : Room => decide (r.id = id)) := by
    funext a
    by_cases h : a.id = cid <;> simp [h]
  rw [hpred]

/-- Every operation preserves the closed-and-unique status of an id. -/
theorem step_preserves_closedAt (repo : List Room) (id : String) (op : Op)
    (h : closedAt repo id = true) : closedAt (step repo op) id = true := by
  cases op with
  | getOp i => exact h
  | token i b s n => exact h
  | close cid =>
    show closedAt (closeRoom cid repo).1 id = true
    rw [closeRoom_repo]
    unfold closedAt at h ⊢
    rw [filter_closeMap]
    cases hm : repo.filter (fun r => r.id = id) with
    | nil => rw [hm] at h; exact Bool.noConfusion h
    | cons r rest =>
      cases rest with
      | nil =>
        rw [hm] at h
        simp only [List.map_cons, List.map_nil]
        by_cases hc : r.id = cid
        · simp [hc]
        · simpa [hc] using h
      | cons r2 rest2 => rw [hm] at h; exact Bool.noConfusion h
  | create b fid sf =>
    show closedAt (createRoom b fid sf repo).1 id = true
    rcases createRoom_repo_cases b fid sf repo with hcase | ⟨room, hcase, hid, hst, hany⟩
    · rw [hcase]; exact h
    · rw [hcase]
      unfold closedAt at h ⊢
      cases hm : repo.filter (fun r => r.id = id) with
      | nil => rw [hm] at h; exact Bool.noConfusion h
      | cons r rest =>
        cases rest with
        | nil =>
          have hrmem : r ∈ repo.filter (fun x => x.id = id) := by
            rw [hm]; exact List.mem_singleton.mpr rfl
          have hrid : r.id = id := by simpa using (List.mem_filter.mp hrmem).2
          have hrrepo : r ∈ repo := (List.mem_filter.mp hrmem).1
          have hne : room.id ≠ id := by
            intro he
            have hwit : repo.any (fun x => x.id = fid) = true :=
              List.any_eq_true.mpr ⟨r, hrrepo, by simp [hrid, ← hid, he]⟩
            rw [hwit] at hany
            exact Bool.noConfusion hany
          rw [List.filter_append, hm]
          have hnil : [room].filter (fun r => r.id = id) = [] := by simp [hne]
          rw [hnil, List.append_nil]
          rw [hm] at h
          exact h
        | cons r2 rest2 => rw [hm] at h; exact Bool.noConfusion h

/-- Any sequence of operations preserves the closed-and-unique status. -/
theorem run_preserves_closedAt (id : String) (ops : List Op) :
    ∀ repo, closedAt repo id = true → closedAt (run repo ops) id = true := by
  induction ops with
  | nil => exact fun repo h => h
  | cons op ops ih => exact fun repo h => ih _ (step_preserves_closedAt repo id op h)

/-- Claim C8: once `close(id)` succeeds, after any further sequence of requests the
lookup of `id` returns a room in the closed state, and token issuance for
`id` with any valid body fails with the roomUnavailable kind and the message
`Room not available`. -/
theorem close_then_permanently_unavailable (id : String) (repo repo' : List Room)
    (room : Room) (ops : List Op)
    (hclose : closeRoom id repo = (repo', .ok room)) :
    (∃ r, getRoom id (run repo' ops) = .ok r ∧ r.state = "closed") ∧
    (∀ (body : TokenBody) (data : TokenInput) (secret : String) (now : Nat),
      tokenSchemaParse body = .ok data →
      issueToken id body (run repo' ops) secret now =
        .error (.roomUnavailable "Room not available")) := by
  have h0 : closedAt repo' id = true := closeRoom_ok_closedAt id repo repo' room hclose
  have h1 : closedAt (run repo' ops) id = true := run_preserves_closedAt id ops repo' h0
  obtain ⟨r, hget, hst⟩ := closedAt_getById _ id h1
  constructor
  · exact ⟨r, by unfold getRoom; rw [hget], hst⟩
  · intro body data secret now hparse
    unfold issueToken
    rw [hparse, hget]
    simp [hst]

/-- Claim C8 witness: closing `r1` then creating an unrelated room leaves `r1`
closed on lookup and token issuance for it failing as unavailable. -/
theorem close_then_permanently_unavailable_witness :
    closeRoom "r1" [openRoom] = ([closedRoom], .ok closedRoom) ∧
    (∃ r, getRoom "r1" (run [closedRoom] [Op.create goodRoomBody "id9" none]) = .ok r ∧
      r.state = "closed") ∧
    issueToken "r1" annBody (run [closedRoom] [Op.create goodRoomBody "id9" none])
      "secret" 5 = .error (.roomUnavailable "Room not available") :=
  ⟨by decide,
    (close_then_permanently_unavailable "r1" [openRoom] [closedRoom] closedRoom
      [Op.create goodRoomBody "id9" none] (by decide)).1,
    (close_then_permanently_unavailable "r1" [openRoom] [closedRoom] closedRoom
      [Op.create goodRoomBody "id9" none] (by decide)).2 annBody
      { role := .host, displayName := "Ann" } "secret" 5 (by decide)⟩

/-! ## Claim C9 -/

/-- Claim C9: states only move forward.  Every operation keeps all states within
the two reference values, and every record after a step either descends from
a record with the same id whose state it kept or moved to closed, or is a
brand-new record — one no pre-existing record shares an id with — entering in
the scheduled state. -/
theorem room_state_forward_only (repo : List Room) (op : Op) :
    (goodStates repo = true → goodStates (step repo op) = true) ∧
    (∀ r', r' ∈ step repo op →
      (∃ r, r ∈ repo ∧ r.id = r'.id ∧ (r'.state = r.state ∨ r'.state = "closed")) ∨
      ((∀ r, r ∈ repo → r.id ≠ r'.id) ∧ r'.state = "scheduled")) := by
  cases op with
  | getOp i =>
    exact ⟨fun h => h, fun r' h => Or.inl ⟨r', h, rfl, Or.inl rfl⟩⟩
  | token i b s n =>
    exact ⟨fun h => h, fun r' h => Or.inl ⟨r', h, rfl, Or.inl rfl⟩⟩
  | close cid =>
    constructor
    · intro h
      rw [show step repo (.close cid) = closeMap repo cid from rfl]
      refine List.all_eq_true.mpr ?_
      intro r' hmem'
      obtain ⟨a, ha, hfa⟩ := List.mem_map.mp hmem'
      have hga := List.all_eq_true.mp h a ha
      by_cases hc : a.id = cid
      · rw [if_pos hc] at hfa
        rw [← hfa]
        simp
      · rw [if_neg hc] at hfa
        rw [← hfa]
        exact hga
    · intro r' hmem'
      rw [show step repo (.close cid) = closeMap repo cid from rfl] at hmem'
      obtain ⟨a, ha, hfa⟩ := List.mem_map.mp hmem'
      by_cases hc : a.id = cid
      · rw [if_pos hc] at hfa
        exact Or.inl ⟨a, ha, by rw [← hfa], Or.inr (by rw [← hfa])⟩
      · rw [if_neg hc] at hfa
        exact Or.inl ⟨a, ha, by rw [hfa], Or.inl (by rw [hfa])⟩
  | create b fid sf =>
    rcases createRoom_repo_cases b fid sf repo with hcase | ⟨room, hcase, hid, hst, hany⟩
    · rw [show step repo (.create b fid sf) = (createRoom b fid sf repo).1 from rfl, hcase]
      exact ⟨fun h => h, fun r' h => Or.inl ⟨r', h, rfl, Or.inl rfl⟩⟩
    · rw [show step repo (.create b fid sf) = (createRoom b fid sf repo).1 from rfl, hcase]
      constructor
      · intro h
        refine List.all_eq_true.mpr ?_
        intro r' hmem'
        rcases List.mem_append.mp hmem' with hin | hnew
        · exact List.all_eq_true.mp h r' hin
        · rw [List.mem_singleton.mp hnew, hst]
          simp
      · intro r' hmem'
        rcases List.mem_append.mp hmem' with hin | hnew
        · exact Or.inl ⟨r', hin, rfl, Or.inl rfl⟩
        · refine Or.inr ⟨?_, by rw [List.mem_singleton.mp hnew]; exact hst⟩
          intro r hr heq
          have : repo.any (fun x => x.id = fid) = true :=
            List.any_eq_true.mpr ⟨r, hr,
              by simp [heq, List.mem_singleton.mp hnew ▸ hid]⟩
          rw [this] at hany
          exact Bool.noConfusion hany

/-- Claim C9 witness: the theorem applied to a concrete repository and a close
step, whose result keeps all states within the two reference values. -/
theorem room_state_forward_only_witness :
    goodStates [openRoom] = true ∧
    goodStates (step [openRoom] (.close "r1")) = true :=
  ⟨by decide, (room_state_forward_only [openRoom] (.close "r1")).1 (by decide)⟩

end CustomVoip
